import Mathlib

/-!
Verification of the crm-phone-connection push relay.

This file gives a shallow embedding of the relay's core logic and proves the
documented properties against it:

* `src/src/services/storage.js` — the in-memory Subscription Store
  (`StorageService`): a JS `Map` from user id to a `Set` of subscriptions,
  where a subscription is keyed by its exact `JSON.stringify` serialization.
* `src/src/services/push.js` — the Notification Dispatcher
  (`PushService.sendToUser`): fan-out with pruning of subscriptions whose
  delivery fails with HTTP 410 (Gone) or 400 (Bad Request).
* the validation middleware (`isValidPhoneNumber`, `validateWebhookToken`,
  `validateCallWebhook`) and the `POST /webhooks/call` route of `src/src/app.js`.
* the VAPID key manager of the vapid service module.

Modelling notes, applied consistently below:

* A JS object is an ordered list of string key/value pairs; `JSON.stringify`
  preserves insertion order of string keys, so field order is observable.
* The JS `Map` is an insertion-ordered association list with unique keys; a JS
  `Set` of strings is an insertion-ordered duplicate-free list of strings.
* `JSON.parse ∘ JSON.stringify` round-trips, and `JSON.stringify ∘ JSON.parse`
  is the identity on strings produced by `JSON.stringify`; the Store holds the
  serialized strings, so `getSubscriptions` is represented as returning the
  stored serializations themselves.
* The outcome of each asynchronous delivery attempt (`Promise.allSettled`) is
  an input of the model: a function from the subscription's index to a
  fulfilled/rejected (with optional HTTP status code) outcome.
* Machine-level nondeterminism (fresh VAPID key generation) is likewise passed
  in as an explicit argument.
-/

set_option maxRecDepth 4000

/-- A push subscription record as a JS object: an ordered list of
string-valued fields.  Field insertion order is part of the value because
`JSON.stringify` preserves it. -/
structure Subscription where
  fields : List (String × String)
deriving DecidableEq

/-- Models `JSON.stringify` on a `Subscription`: braces around the
comma-separated `"key":"value"` pairs, in field order. -/
def JSONstringify (sub : Subscription) : String :=
  "\x7b" ++
    String.intercalate ","
      (sub.fields.map (fun kv => "\"" ++ kv.1 ++ "\":\"" ++ kv.2 ++ "\"")) ++
  "\x7d"

/-- The Subscription Store state (`storage.js`): `this.subscriptions` is a
`Map` from user id to a `Set` of serialized subscriptions, modelled as an
insertion-ordered association list of insertion-ordered key lists. -/
structure StorageService where
  subscriptions : List (String × List String)
deriving DecidableEq

/-- The `StorageService` constructor: an empty `Map`. -/
def emptyStorage : StorageService := ⟨[]⟩

/-- `Map.get`: first entry with the given key, if any. -/
def mapGet : List (String × List String) → String → Option (List String)
  | [], _ => none
  | e :: rest, u => if e.1 = u then some e.2 else mapGet rest u

/-- `Set.add` on a set of strings: no-op if the element is present, else
append at the end (JS sets are insertion-ordered). -/
def setAdd (s : List String) (k : String) : List String :=
  if k ∈ s then s else s ++ [k]

/-- The `Map` update performed by `addSubscription`: create the entry with an
empty set if the user is absent (appending at the end of the map), then add
the subscription key to the user's set. -/
def mapAddKey : List (String × List String) → String → String → List (String × List String)
  | [], u, k => [(u, [k])]
  | e :: rest, u, k =>
    if e.1 = u then (u, setAdd e.2 k) :: rest
    else e :: mapAddKey rest u k

/-- The `Map` update performed by `removeSubscription`: no-op if the user is
absent; otherwise delete the key from the user's set (no-op if absent), and
drop the user's entry entirely if the set becomes empty. -/
def mapRemoveKey : List (String × List String) → String → String → List (String × List String)
  | [], _, _ => []
  | e :: rest, u, k =>
    if e.1 = u then
      if k ∈ e.2 then
        if e.2.erase k = [] then rest else (u, e.2.erase k) :: rest
      else e :: rest
    else e :: mapRemoveKey rest u k

/-- `StorageService.addSubscription(userId, subscription)` from `storage.js`:
serialize the subscription and insert it into the user's set. -/
def StorageService.addSubscription (st : StorageService) (userId : String)
    (subscription : Subscription) : StorageService :=
  ⟨mapAddKey st.subscriptions userId (JSONstringify subscription)⟩

/-- `StorageService.getSubscriptions(userId)` from `storage.js`: the user's
stored subscriptions (as their serializations, see the module comment), or
`[]` when the user is unknown. -/
def StorageService.getSubscriptions (st : StorageService) (userId : String) : List String :=
  (mapGet st.subscriptions userId).getD []

/-- Removal by serialized key; `removeSubscription` and the Dispatcher's
pruning (which re-serializes the parsed record to the identical key) both
reduce to this operation. -/
def StorageService.removeSubscriptionKey (st : StorageService) (userId key : String) :
    StorageService :=
  ⟨mapRemoveKey st.subscriptions userId key⟩

/-- `StorageService.removeSubscription(userId, subscription)` from
`storage.js`. -/
def StorageService.removeSubscription (st : StorageService) (userId : String)
    (subscription : Subscription) : StorageService :=
  st.removeSubscriptionKey userId (JSONstringify subscription)

/-- `StorageService.getUserCount()`: `Map.size`. -/
def StorageService.getUserCount (st : StorageService) : Nat :=
  st.subscriptions.length

/-- `StorageService.getTotalSubscriptions()`: the sum of set sizes. -/
def StorageService.getTotalSubscriptions (st : StorageService) : Nat :=
  (st.subscriptions.map (fun e => e.2.length)).sum

/-- A JSON-ish statistics value: `getStats` returns a JS number for the
average when there are no users, and a string otherwise. -/
inductive StatValue where
  | num (n : Nat)
  | str (s : String)
deriving DecidableEq

/-- Decimal digits of a natural number, most significant first
(fuel-indexed structural recursion so that the kernel can evaluate it). -/
def natCharsAux : Nat → Nat → List Char
  | 0, _ => []
  | fuel + 1, n =>
    if n < 10 then [Nat.digitChar n]
    else natCharsAux fuel (n / 10) ++ [Nat.digitChar (n % 10)]

/-- Decimal digits of a natural number, most significant first. -/
def natChars (n : Nat) : List Char := natCharsAux (n + 1) n

/-- Models `(t / u).toFixed(2)` for the nonnegative rational `t / u`
(`u > 0`): round `100 * t / u` to the nearest integer (half away from zero)
and render it with exactly two digits after the decimal point. -/
def toFixed2 (t u : Nat) : String :=
  let n := (200 * t + u) / (2 * u)
  String.mk (natChars (n / 100) ++ '.' :: [Nat.digitChar (n / 10 % 10), Nat.digitChar (n % 10)])

/-- The record returned by `StorageService.getStats()`. -/
structure Stats where
  users : Nat
  totalSubscriptions : Nat
  avgSubscriptionsPerUser : StatValue
deriving DecidableEq

/-- `StorageService.getStats()` from `storage.js`: the average is the
two-decimal `toFixed(2)` string when there is at least one user, and the
number `0` otherwise (the division is guarded by `getUserCount() > 0`). -/
def StorageService.getStats (st : StorageService) : Stats :=
  { users := st.getUserCount
    totalSubscriptions := st.getTotalSubscriptions
    avgSubscriptionsPerUser :=
      if st.getUserCount > 0 then
        StatValue.str (toFixed2 st.getTotalSubscriptions st.getUserCount)
      else
        StatValue.num 0 }

/-- The well-formedness invariant of the Store: map keys are unique (JS `Map`
semantics), and every user entry holds a nonempty duplicate-free set (JS `Set`
semantics plus the empty-entry pruning in `removeSubscription`). -/
def StorageService.Invariant (st : StorageService) : Prop :=
  (st.subscriptions.map Prod.fst).Nodup ∧
  ∀ e ∈ st.subscriptions, e.2 ≠ [] ∧ e.2.Nodup

instance (st : StorageService) : Decidable st.Invariant := by
  unfold StorageService.Invariant
  infer_instance

/-- One outcome of `Promise.allSettled` for a single delivery attempt:
fulfilled, or rejected with the error's optional `statusCode`. -/
inductive DeliveryOutcome where
  | fulfilled
  | rejected (statusCode : Option Nat)
deriving DecidableEq

/-- The two permanent-failure classifications that cause pruning in
`push.js`: `statusCode === 410 || statusCode === 400`. -/
def isPermanentFailure : DeliveryOutcome → Bool
  | .fulfilled => false
  | .rejected statusCode => statusCode == some 410 || statusCode == some 400

/-- `result.status === 'fulfilled'`. -/
def isFulfilled : DeliveryOutcome → Bool
  | .fulfilled => true
  | .rejected _ => false

/-- The `{sent, total}` record returned by `sendToUser`. -/
structure SendResult where
  sent : Nat
  total : Nat
deriving DecidableEq

/-- Observable outcome of a `sendToUser` call: its return value, the Store
state after the call, and the number of delivery attempts that were issued. -/
structure SendOutcome where
  result : SendResult
  store : StorageService
  attempts : Nat
deriving DecidableEq

/-- The `results.forEach((result, index) => ...)` loop of `sendToUser` over
the indexed subscription snapshot: count fulfilled results, and remove the
subscription from the Store when the failure carries status code 410 or
400. -/
def forEachResults (userId : String) (outcomes : Nat → DeliveryOutcome) :
    List (Nat × String) → Nat × StorageService → Nat × StorageService
  | [], acc => acc
  | p :: rest, acc =>
    forEachResults userId outcomes rest
      (match outcomes p.1 with
       | .fulfilled => (acc.1 + 1, acc.2)
       | .rejected statusCode =>
         if statusCode == some 410 || statusCode == some 400 then
           (acc.1, acc.2.removeSubscriptionKey userId p.2)
         else acc)

/-- `PushService.sendToUser(userId, payload)` from `push.js`, with the
per-subscription delivery outcomes passed in as `outcomes` (indexed like
`Promise.allSettled`'s result array).  Empty snapshot: return
`{sent: 0, total: 0}` immediately, with no delivery attempt. -/
def PushService.sendToUser (st : StorageService) (userId : String)
    (outcomes : Nat → DeliveryOutcome) : SendOutcome :=
  let subscriptions := st.getSubscriptions userId
  if subscriptions.length = 0 then
    { result := { sent := 0, total := 0 }, store := st, attempts := 0 }
  else
    let r := forEachResults userId outcomes subscriptions.enum (0, st)
    { result := { sent := r.1, total := subscriptions.length }
      store := r.2
      attempts := subscriptions.length }

/-- The ECMAScript whitespace class: the characters matched by `\s` in a JS
regex and stripped by `String.prototype.trim`. -/
def jsWhitespace (c : Char) : Bool :=
  c == '\t' || c == '\n' || c.toNat == 11 || c.toNat == 12 || c == '\r' || c == ' ' ||
  c.toNat == 0xa0 || c.toNat == 0x1680 ||
  (decide (0x2000 ≤ c.toNat) && decide (c.toNat ≤ 0x200a)) ||
  c.toNat == 0x2028 || c.toNat == 0x2029 || c.toNat == 0x202f || c.toNat == 0x205f ||
  c.toNat == 0x3000 || c.toNat == 0xfeff

/-- `String.prototype.trim`: drop leading and trailing JS whitespace. -/
def jsTrim (s : String) : List Char :=
  ((s.data.dropWhile jsWhitespace).reverse.dropWhile jsWhitespace).reverse

/-- `trim` packaged back into a string. -/
def jsTrimStr (s : String) : String := String.mk (jsTrim s)

/-- The character class `[\d\s\-\(\)]` of the phone regex in the validation
middleware. -/
def phoneClassChar (c : Char) : Bool :=
  c.isDigit || jsWhitespace c || c == '-' || c == '(' || c == ')'

/-- `/^\+?[\d\s\-\(\)]{7,20}$/.test`: an optional leading `'+'` (which, not
being in the character class, must consume a leading `'+'` when present)
followed by 7 to 20 characters of the class. -/
def phoneRegexTest (cs : List Char) : Bool :=
  let body := if cs.head? = some '+' then cs.tail else cs
  body.all phoneClassChar && decide (7 ≤ body.length) && decide (body.length ≤ 20)

/-- `isValidPhoneNumber` from the validation middleware: a falsy argument
(the empty string) is rejected, otherwise the regex is tested against the
trimmed string. -/
def isValidPhoneNumber (phoneNumber : String) : Bool :=
  if phoneNumber == "" then false
  else phoneRegexTest (jsTrim phoneNumber)

/-- A JS value as seen by the body validators: `undefined` (absent field), a
string, or any non-string value (carrying only its truthiness). -/
inductive JsValue where
  | undefined
  | str (s : String)
  | other (truthy : Bool)
deriving DecidableEq

/-- JS falsiness of a `JsValue` (`!v`): `undefined`, the empty string, and
falsy non-strings. -/
def JsValue.isFalsy : JsValue → Bool
  | .undefined => true
  | .str s => s == ""
  | .other truthy => !truthy

/-- `typeof v !== 'string'`. -/
def JsValue.isNonString : JsValue → Bool
  | .undefined => true
  | .str _ => false
  | .other _ => true

/-- The underlying string of a string-valued `JsValue` (only used on the
branches where the validators have established `typeof v === 'string'`). -/
def JsValue.asString : JsValue → String
  | .str s => s
  | _ => ""

/-- A `POST /webhooks/call` request: the `X-Webhook-Token` header (absent or
its string value) and the two body fields. -/
structure WebhookRequest where
  token : Option String
  owner_user_id : JsValue
  callee_number : JsValue
deriving DecidableEq

/-- Truthiness test `!token` on the result of `req.get('X-Webhook-Token')`:
true when the header is absent (`undefined`) or has the empty value. -/
def tokenFalsy : Option String → Bool
  | none => true
  | some s => s == ""

/-- The condition under which `validateCallWebhook` rejects `owner_user_id`:
`!v || typeof v !== 'string' || v.trim() === ''`. -/
def ownerInvalid (v : JsValue) : Bool :=
  v.isFalsy || v.isNonString || (jsTrimStr v.asString == "")

/-- The HTTP response of the webhook route (status, plus the `sent`/`total`
counts on the success body). -/
structure WebhookResponse where
  status : Nat
  sent : Option Nat
  total : Option Nat
deriving DecidableEq

/-- Observable outcome of one webhook request: response, Store state after
the request, and whether the Dispatcher (`pushService.sendToUser`) was
invoked. -/
structure WebhookOutcome where
  response : WebhookResponse
  store : StorageService
  dispatched : Bool
deriving DecidableEq

/-- The `POST /webhooks/call` pipeline from `app.js`:
`validateWebhookToken(WEBHOOK_TOKEN)` then `validateCallWebhook` then the
route handler, with the delivery outcomes passed through to the
Dispatcher. -/
def webhooksCallRoute (expectedToken : String) (req : WebhookRequest)
    (st : StorageService) (outcomes : Nat → DeliveryOutcome) : WebhookOutcome :=
  if tokenFalsy req.token then
    { response := { status := 401, sent := none, total := none }
      store := st, dispatched := false }
  else if !(req.token == some expectedToken) then
    { response := { status := 403, sent := none, total := none }
      store := st, dispatched := false }
  else if ownerInvalid req.owner_user_id then
    { response := { status := 400, sent := none, total := none }
      store := st, dispatched := false }
  else if req.callee_number.isFalsy || req.callee_number.isNonString then
    { response := { status := 400, sent := none, total := none }
      store := st, dispatched := false }
  else if !(isValidPhoneNumber req.callee_number.asString) then
    { response := { status := 400, sent := none, total := none }
      store := st, dispatched := false }
  else
    let userId := jsTrimStr req.owner_user_id.asString
    let out := PushService.sendToUser st userId outcomes
    { response := { status := 200, sent := some out.result.sent, total := some out.result.total }
      store := out.store, dispatched := true }

/-- The environment configuration read by the VAPID key manager. -/
structure VapidEnv where
  vapidPublicKey : Option String
  vapidPrivateKey : Option String
deriving DecidableEq

/-- The key manager's state (`this.publicKey`, `this.privateKey`,
`this.adminEmail`, all initially `null`). -/
structure VapidService where
  publicKey : Option String
  privateKey : Option String
  adminEmail : Option String
deriving DecidableEq

/-- Truthiness of an environment variable: absent or empty is falsy. -/
def envFalsy : Option String → Bool
  | none => true
  | some s => s == ""

/-- Models the key manager's `initialize(adminEmail)` from the vapid service
module: load the keypair from the environment; if either key is missing,
install a freshly generated keypair instead.  `generated` stands for the pair
that `webpush.generateVAPIDKeys()` returns during this particular call. -/
def VapidService.setup (_svc : VapidService) (env : VapidEnv)
    (generated : String × String) (adminEmail : String) : VapidService :=
  if envFalsy env.vapidPublicKey || envFalsy env.vapidPrivateKey then
    { publicKey := some generated.1, privateKey := some generated.2
      adminEmail := some adminEmail }
  else
    { publicKey := env.vapidPublicKey, privateKey := env.vapidPrivateKey
      adminEmail := some adminEmail }

/-- `getPublicKey()` of the key manager. -/
def VapidService.getPublicKey (svc : VapidService) : Option String := svc.publicKey

/-- One Store operation, for stating the Store invariant over arbitrary
operation sequences (reads leave the state unchanged). -/
inductive StoreOp where
  | add (userId : String) (subscription : Subscription)
  | remove (userId : String) (subscription : Subscription)
  | get (userId : String)
  | stats

/-- State effect of a Store operation. -/
def applyOp (st : StorageService) : StoreOp → StorageService
  | .add u sub => st.addSubscription u sub
  | .remove u sub => st.removeSubscription u sub
  | .get _ => st
  | .stats => st

/-- Run a sequence of Store operations. -/
def runOps (st : StorageService) (ops : List StoreOp) : StorageService :=
  ops.foldl applyOp st

/-- The character class the specification's phone-validation sentence names
literally: digits, the space character, hyphens, parentheses. -/
def specPhoneCharClaim (c : Char) : Bool :=
  c.isDigit || c == ' ' || c == '-' || c == '(' || c == ')'

/-- The character class with "spaces" read as the JS whitespace class (the
class the code actually uses). -/
def specPhoneCharAmended (c : Char) : Bool :=
  c.isDigit || jsWhitespace c || c == '-' || c == '(' || c == ')'

/-- The specification's phone-number acceptance predicate, stated as in the
specification text: after trimming surrounding whitespace the string is an
optional leading `'+'` followed by 7 to 20 characters of the given class. -/
def PhoneSpec (allowed : Char → Bool) (s : String) : Prop :=
  ∃ body : List Char,
    (jsTrim s = '+' :: body ∨ jsTrim s = body) ∧
    (∀ c ∈ body, allowed c = true) ∧
    7 ≤ body.length ∧ body.length ≤ 20

/-- A character list that ends in `'.'` followed by exactly two decimal
digits, with a nonempty integer part before the dot. -/
def twoDecimalChars (cs : List Char) : Bool :=
  match cs.reverse with
  | c2 :: c1 :: p :: _ :: _ => c2.isDigit && c1.isDigit && (p == '.')
  | _ => false

/-- A string that ends in `'.'` followed by exactly two decimal digits, with
a nonempty integer part before the dot. -/
def twoDecimalString (s : String) : Bool :=
  twoDecimalChars s.data

/-! ### Basic lemmas about the map operations -/

theorem mapGet_eq_none_of_not_mem {m : List (String × List String)} {u : String}
    (h : u ∉ m.map Prod.fst) : mapGet m u = none := by
  induction m with
  | nil => rfl
  | cons e rest ih =>
    simp only [List.map_cons, List.mem_cons, not_or] at h
    rw [mapGet, if_neg (fun he : e.1 = u => h.1 he.symm)]
    exact ih h.2

theorem mapGet_mem {m : List (String × List String)} {u : String} {s : List String}
    (h : mapGet m u = some s) : (u, s) ∈ m := by
  induction m with
  | nil => simp [mapGet] at h
  | cons e rest ih =>
    obtain ⟨w, v⟩ := e
    by_cases he : w = u
    · rw [mapGet, if_pos he] at h
      injection h with h'
      subst he; subst h'
      exact List.mem_cons_self _ _
    · rw [mapGet, if_neg he] at h
      exact List.mem_cons_of_mem _ (ih h)

theorem mapAddKey_get_same (m : List (String × List String)) (u k : String) :
    (mapGet (mapAddKey m u k) u).getD [] = setAdd ((mapGet m u).getD []) k := by
  induction m with
  | nil => simp [mapAddKey, mapGet, setAdd]
  | cons e rest ih =>
    by_cases he : e.1 = u
    · simp [mapAddKey, mapGet, he]
    · simp only [mapAddKey, if_neg he, mapGet]
      exact ih

theorem mapAddKey_get_other {m : List (String × List String)} {u u' : String} (k : String)
    (h : u' ≠ u) : mapGet (mapAddKey m u k) u' = mapGet m u' := by
  induction m with
  | nil =>
    simp only [mapAddKey, mapGet]
    rw [if_neg (fun hh : u = u' => h hh.symm)]
  | cons e rest ih =>
    by_cases he : e.1 = u
    · have he' : e.1 ≠ u' := by
        rw [he]
        exact fun hh => h hh.symm
      simp only [mapAddKey, if_pos he, mapGet]
      rw [if_neg (fun hh : u = u' => h hh.symm), if_neg he']
    · simp only [mapAddKey, if_neg he, mapGet]
      by_cases he2 : e.1 = u'
      · rw [if_pos he2, if_pos he2]
      · rw [if_neg he2, if_neg he2]
        exact ih

theorem mapAddKey_keys (m : List (String × List String)) (u k : String) :
    (mapAddKey m u k).map Prod.fst =
      if u ∈ m.map Prod.fst then m.map Prod.fst else m.map Prod.fst ++ [u] := by
  induction m with
  | nil => simp [mapAddKey]
  | cons e rest ih =>
    by_cases he : e.1 = u
    · simp [mapAddKey, he]
    · have hne : ¬ u = e.1 := fun hh => he hh.symm
      by_cases hm : u ∈ rest.map Prod.fst
      · simp [mapAddKey, if_neg he, ih, hm, hne]
      · simp [mapAddKey, if_neg he, ih, hm, hne]

theorem mapAddKey_mem {m : List (String × List String)} {u k : String}
    {e' : String × List String} (h : e' ∈ mapAddKey m u k) :
    e' ∈ m ∨ (∃ e ∈ m, e' = (u, setAdd e.2 k)) ∨ e' = (u, [k]) := by
  induction m with
  | nil =>
    simp only [mapAddKey, List.mem_singleton] at h
    exact Or.inr (Or.inr h)
  | cons e rest ih =>
    by_cases he : e.1 = u
    · rw [mapAddKey, if_pos he] at h
      rcases List.mem_cons.mp h with h1 | h1
      · exact Or.inr (Or.inl ⟨e, List.mem_cons_self _ _, h1⟩)
      · exact Or.inl (List.mem_cons_of_mem _ h1)
    · rw [mapAddKey, if_neg he] at h
      rcases List.mem_cons.mp h with h1 | h1
      · exact Or.inl (h1 ▸ List.mem_cons_self _ _)
      · rcases ih h1 with h2 | ⟨e2, he2, h2⟩ | h2
        · exact Or.inl (List.mem_cons_of_mem _ h2)
        · exact Or.inr (Or.inl ⟨e2, List.mem_cons_of_mem _ he2, h2⟩)
        · exact Or.inr (Or.inr h2)

theorem setAdd_nodup {s : List String} (h : s.Nodup) (k : String) : (setAdd s k).Nodup := by
  unfold setAdd
  split
  · exact h
  · next hk => simp [List.nodup_append, h, hk]

theorem setAdd_ne_nil (s : List String) (k : String) : setAdd s k ≠ [] := by
  unfold setAdd
  split
  · next hk =>
    intro hnil
    rw [hnil] at hk
    exact absurd hk (List.not_mem_nil k)
  · simp

theorem mem_setAdd (s : List String) (k : String) : k ∈ setAdd s k := by
  unfold setAdd
  split
  · assumption
  · simp

theorem mapRemoveKey_get_other {m : List (String × List String)} {u u' : String} (k : String)
    (h : u' ≠ u) : mapGet (mapRemoveKey m u k) u' = mapGet m u' := by
  induction m with
  | nil => rfl
  | cons e rest ih =>
    by_cases he : e.1 = u
    · have he' : e.1 ≠ u' := by
        rw [he]
        exact fun hh => h hh.symm
      simp only [mapRemoveKey, if_pos he]
      split
      · split
        · rw [mapGet, if_neg he']
        · rw [mapGet, if_neg (fun hh : u = u' => h hh.symm), mapGet, if_neg he']
      · rfl
    · simp only [mapRemoveKey, if_neg he]
      by_cases he2 : e.1 = u'
      · rw [mapGet, if_pos he2, mapGet, if_pos he2]
      · rw [mapGet, if_neg he2, mapGet, if_neg he2]
        exact ih

theorem mapRemoveKey_keys_sublist (m : List (String × List String)) (u k : String) :
    ((mapRemoveKey m u k).map Prod.fst).Sublist (m.map Prod.fst) := by
  induction m with
  | nil => simp [mapRemoveKey]
  | cons e rest ih =>
    by_cases he : e.1 = u
    · simp only [mapRemoveKey, if_pos he]
      split
      · split
        · simp only [List.map_cons]
          exact List.sublist_cons_self _ _
        · simp only [List.map_cons, he]
          exact List.Sublist.refl _
      · exact List.Sublist.refl _
    · simp only [mapRemoveKey, if_neg he, List.map_cons]
      exact ih.cons₂ e.1

theorem mapRemoveKey_get_same {m : List (String × List String)} (u k : String)
    (hnd : (m.map Prod.fst).Nodup) :
    (mapGet (mapRemoveKey m u k) u).getD [] = ((mapGet m u).getD []).erase k := by
  induction m with
  | nil => simp [mapRemoveKey, mapGet]
  | cons e rest ih =>
    rw [List.map_cons] at hnd
    have hcons := List.nodup_cons.mp hnd
    by_cases he : e.1 = u
    · have hu : u ∉ rest.map Prod.fst := he ▸ hcons.1
      simp only [mapRemoveKey, if_pos he]
      split
      · split
        · next hemp =>
          rw [mapGet_eq_none_of_not_mem hu]
          simp only [mapGet, if_pos he]
          simp [hemp]
        · simp [mapGet, he]
      · next hk =>
        simp only [mapGet, if_pos he]
        simp [List.erase_of_not_mem hk]
    · simp only [mapRemoveKey, if_neg he, mapGet, if_neg he]
      exact ih hcons.2

theorem mapRemoveKey_mem {m : List (String × List String)} {u k : String}
    {e' : String × List String} (h : e' ∈ mapRemoveKey m u k) :
    e' ∈ m ∨ ∃ e ∈ m, e' = (u, e.2.erase k) ∧ e.2.erase k ≠ [] := by
  induction m with
  | nil => simp [mapRemoveKey] at h
  | cons e rest ih =>
    by_cases he : e.1 = u
    · rw [mapRemoveKey, if_pos he] at h
      by_cases hk : k ∈ e.2
      · rw [if_pos hk] at h
        by_cases hemp : e.2.erase k = []
        · rw [if_pos hemp] at h
          exact Or.inl (List.mem_cons_of_mem _ h)
        · rw [if_neg hemp] at h
          rcases List.mem_cons.mp h with h1 | h1
          · exact Or.inr ⟨e, List.mem_cons_self _ _, h1, hemp⟩
          · exact Or.inl (List.mem_cons_of_mem _ h1)
      · rw [if_neg hk] at h
        exact Or.inl h
    · rw [mapRemoveKey, if_neg he] at h
      rcases List.mem_cons.mp h with h1 | h1
      · exact Or.inl (h1 ▸ List.mem_cons_self _ _)
      · rcases ih h1 with h2 | ⟨e2, he2, h2⟩
        · exact Or.inl (List.mem_cons_of_mem _ h2)
        · exact Or.inr ⟨e2, List.mem_cons_of_mem _ he2, h2⟩

theorem mapRemoveKey_last {m : List (String × List String)} {u k : String}
    (hnd : (m.map Prod.fst).Nodup) (hget : mapGet m u = some [k]) :
    (mapRemoveKey m u k).length = m.length - 1 ∧ mapGet (mapRemoveKey m u k) u = none := by
  induction m with
  | nil => simp [mapGet] at hget
  | cons e rest ih =>
    rw [List.map_cons] at hnd
    have hcons := List.nodup_cons.mp hnd
    by_cases he : e.1 = u
    · rw [mapGet, if_pos he] at hget
      injection hget with h2
      have hu : u ∉ rest.map Prod.fst := he ▸ hcons.1
      have hk : k ∈ e.2 := by rw [h2]; exact List.mem_cons_self _ _
      have hemp : e.2.erase k = [] := by rw [h2]; simp
      rw [mapRemoveKey, if_pos he, if_pos hk, if_pos hemp]
      exact ⟨by simp, mapGet_eq_none_of_not_mem hu⟩
    · rw [mapGet, if_neg he] at hget
      have hrest : rest ≠ [] := by
        intro hnil
        rw [hnil] at hget
        simp [mapGet] at hget
      obtain ⟨hl, hg⟩ := ih hcons.2 hget
      rw [mapRemoveKey, if_neg he]
      refine ⟨?_, ?_⟩
      · have : 1 ≤ rest.length := by
          cases rest
          · exact absurd rfl hrest
          · simp
        simp only [List.length_cons, hl]
        omega
      · rw [mapGet, if_neg he]
        exact hg

/-! ### Invariant preservation -/

theorem invariant_emptyStorage : emptyStorage.Invariant := by
  constructor
  · simp [emptyStorage]
  · intro e he
    simp [emptyStorage] at he

theorem invariant_addSubscription {st : StorageService} (h : st.Invariant)
    (u : String) (sub : Subscription) : (st.addSubscription u sub).Invariant := by
  obtain ⟨hkeys, hentries⟩ := h
  constructor
  · rw [StorageService.addSubscription, mapAddKey_keys]
    split
    · exact hkeys
    · next hmem =>
      simp [List.nodup_append, hkeys, hmem]
  · intro e' he'
    rcases mapAddKey_mem he' with h1 | ⟨e2, he2, h1⟩ | h1
    · exact hentries e' h1
    · obtain ⟨hne, hnd⟩ := hentries e2 he2
      rw [h1]
      exact ⟨setAdd_ne_nil _ _, setAdd_nodup hnd _⟩
    · rw [h1]
      exact ⟨by simp, by simp⟩

theorem invariant_removeSubscriptionKey {st : StorageService} (h : st.Invariant)
    (u k : String) : (st.removeSubscriptionKey u k).Invariant := by
  obtain ⟨hkeys, hentries⟩ := h
  constructor
  · exact hkeys.sublist (mapRemoveKey_keys_sublist st.subscriptions u k)
  · intro e' he'
    rcases mapRemoveKey_mem he' with h1 | ⟨e2, he2, h1, h2⟩
    · exact hentries e' h1
    · obtain ⟨hne, hnd⟩ := hentries e2 he2
      rw [h1]
      exact ⟨h2, hnd.erase k⟩

theorem invariant_removeSubscription {st : StorageService} (h : st.Invariant)
    (u : String) (sub : Subscription) : (st.removeSubscription u sub).Invariant :=
  invariant_removeSubscriptionKey h u (JSONstringify sub)

theorem invariant_applyOp {st : StorageService} (h : st.Invariant) (op : StoreOp) :
    (applyOp st op).Invariant := by
  cases op with
  | add u sub => exact invariant_addSubscription h u sub
  | remove u sub => exact invariant_removeSubscription h u sub
  | get _ => exact h
  | stats => exact h

theorem invariant_runOps {st : StorageService} (h : st.Invariant) (ops : List StoreOp) :
    (runOps st ops).Invariant := by
  induction ops generalizing st with
  | nil => exact h
  | cons op ops ih => exact ih (invariant_applyOp h op)

theorem getSubscriptions_nodup {st : StorageService} (h : st.Invariant) (u : String) :
    (st.getSubscriptions u).Nodup := by
  rw [StorageService.getSubscriptions]
  cases hm : mapGet st.subscriptions u with
  | none => simp
  | some s => simpa using (h.2 _ (mapGet_mem hm)).2

/-! ### Sequential removal of a list of keys -/

/-- Fold removing a list of serialized subscriptions for one user; the
Dispatcher's pruning loop has exactly this effect on the Store. -/
def removeKeysFold (st : StorageService) (u : String) (ks : List String) : StorageService :=
  ks.foldl (fun s k => s.removeSubscriptionKey u k) st

theorem removeKeysFold_get_other {st : StorageService} {u u' : String} (h : u' ≠ u)
    (ks : List String) :
    (removeKeysFold st u ks).getSubscriptions u' = st.getSubscriptions u' := by
  induction ks generalizing st with
  | nil => rfl
  | cons k ks ih =>
    rw [removeKeysFold, List.foldl_cons]
    have hrec := @ih (st.removeSubscriptionKey u k)
    rw [removeKeysFold] at hrec
    rw [hrec, StorageService.getSubscriptions, StorageService.getSubscriptions,
      StorageService.removeSubscriptionKey, mapRemoveKey_get_other k h]

theorem removeKeysFold_keys_nodup {st : StorageService}
    (h : (st.subscriptions.map Prod.fst).Nodup) (u : String) (ks : List String) :
    ((removeKeysFold st u ks).subscriptions.map Prod.fst).Nodup := by
  induction ks generalizing st with
  | nil => exact h
  | cons k ks ih =>
    rw [removeKeysFold, List.foldl_cons]
    exact ih (h.sublist (mapRemoveKey_keys_sublist st.subscriptions u k))

theorem removeKeysFold_get_same {st : StorageService} {u : String}
    (h : (st.subscriptions.map Prod.fst).Nodup) (ks : List String) :
    (removeKeysFold st u ks).getSubscriptions u = (st.getSubscriptions u).diff ks := by
  induction ks generalizing st with
  | nil => rfl
  | cons k ks ih =>
    rw [removeKeysFold, List.foldl_cons, List.diff_cons]
    have hstep : (st.removeSubscriptionKey u k).getSubscriptions u
        = (st.getSubscriptions u).erase k := by
      rw [StorageService.getSubscriptions, StorageService.getSubscriptions,
        StorageService.removeSubscriptionKey]
      exact mapRemoveKey_get_same u k h
    have hrec := @ih (st.removeSubscriptionKey u k)
      (h.sublist (mapRemoveKey_keys_sublist st.subscriptions u k))
    rw [removeKeysFold] at hrec
    rw [hrec, hstep]

/-! ### The Dispatcher's result-processing loop -/

theorem forEachResults_spec (u : String) (oc : Nat → DeliveryOutcome) :
    ∀ (l : List (Nat × String)) (s : Nat) (st : StorageService),
    forEachResults u oc l (s, st) =
      (s + l.countP (fun p => isFulfilled (oc p.1)),
       removeKeysFold st u
         ((l.filter (fun p => isPermanentFailure (oc p.1))).map Prod.snd)) := by
  intro l
  induction l with
  | nil =>
    intro s st
    simp [forEachResults, removeKeysFold]
  | cons p rest ih =>
    intro s st
    rw [forEachResults]
    cases hoc : oc p.1 with
    | fulfilled =>
      simp only [hoc]
      rw [ih]
      have hcount : (p :: rest).countP (fun q => isFulfilled (oc q.1))
          = rest.countP (fun q => isFulfilled (oc q.1)) + 1 := by
        rw [List.countP_cons]
        simp [hoc, isFulfilled]
      have hfilter : (p :: rest).filter (fun q => isPermanentFailure (oc q.1))
          = rest.filter (fun q => isPermanentFailure (oc q.1)) := by
        rw [List.filter_cons]
        simp [hoc, isPermanentFailure]
      rw [hcount, hfilter]
      refine congrArg (fun x => (x, _)) ?_
      omega
    | rejected code =>
      simp only [hoc]
      have hcount : (p :: rest).countP (fun q => isFulfilled (oc q.1))
          = rest.countP (fun q => isFulfilled (oc q.1)) := by
        rw [List.countP_cons]
        simp [hoc, isFulfilled]
      by_cases hperm : (code == some 410 || code == some 400) = true
      · rw [if_pos hperm, ih, hcount]
        have hfilter : (p :: rest).filter (fun q => isPermanentFailure (oc q.1))
            = p :: rest.filter (fun q => isPermanentFailure (oc q.1)) := by
          rw [List.filter_cons]
          simp [hoc, isPermanentFailure, hperm]
        rw [hfilter]
        rfl
      · rw [if_neg hperm, ih, hcount]
        have hfilter : (p :: rest).filter (fun q => isPermanentFailure (oc q.1))
            = rest.filter (fun q => isPermanentFailure (oc q.1)) := by
          rw [List.filter_cons]
          simp only [hoc, isPermanentFailure]
          rw [if_neg hperm]
        rw [hfilter]

theorem countP_enum {α : Type} (l : List α) (p : Nat → Bool) :
    l.enum.countP (fun q => p q.1) = (List.range l.length).countP p := by
  have h := List.countP_map p (Prod.fst (α := Nat) (β := α)) l.enum
  rw [List.enum_map_fst] at h
  exact h.symm

theorem sendToUser_eq (st : StorageService) (userId : String) (oc : Nat → DeliveryOutcome) :
    PushService.sendToUser st userId oc =
      if (st.getSubscriptions userId).length = 0 then
        { result := { sent := 0, total := 0 }, store := st, attempts := 0 }
      else
        { result :=
            { sent := (forEachResults userId oc (st.getSubscriptions userId).enum (0, st)).1
              total := (st.getSubscriptions userId).length }
          store := (forEachResults userId oc (st.getSubscriptions userId).enum (0, st)).2
          attempts := (st.getSubscriptions userId).length } := rfl

theorem length_filter_not_mem_of_sublist {subs ks : List String}
    (hnd : subs.Nodup) (hsub : ks.Sublist subs) :
    (subs.filter (fun k => k ∉ ks)).length = subs.length - ks.length := by
  have hknd : ks.Nodup := hnd.sublist hsub
  have hmemlen : (subs.filter (fun k => decide (k ∈ ks))).length = ks.length := by
    have hp : List.Perm (subs.filter (fun k => decide (k ∈ ks))) ks := by
      refine (List.perm_ext_iff_of_nodup (hnd.filter _) hknd).mpr ?_
      intro a
      simp only [List.mem_filter, decide_eq_true_eq]
      exact ⟨fun h => h.2, fun h => ⟨hsub.subset h, h⟩⟩
    exact hp.length_eq
  have htot : subs.length = (subs.filter (fun k => decide (k ∈ ks))).length
      + (subs.filter (fun k => !decide (k ∈ ks))).length := by
    have h := List.length_eq_countP_add_countP (fun k => decide (k ∈ ks)) subs
    rw [List.countP_eq_length_filter, List.countP_eq_length_filter] at h
    simpa using h
  have hsame : (subs.filter (fun k => !decide (k ∈ ks))).length
      = (subs.filter (fun k => k ∉ ks)).length := by
    simp [decide_not]
  omega

/-- C1: `sendToUser` reports `total` = the number of stored subscriptions and
`sent` = the number of fulfilled deliveries; exactly the subscriptions whose
delivery was rejected with status 410 or 400 are removed from the Store
(leaving `N - M` of them), other users are untouched, and when no delivery
fails permanently the Store is completely unchanged. -/
theorem claim1_fanout_completeness (st : StorageService) (userId : String)
    (outcomes : Nat → DeliveryOutcome) (hInv : st.Invariant) :
    (PushService.sendToUser st userId outcomes).result.total
        = (st.getSubscriptions userId).length ∧
    (PushService.sendToUser st userId outcomes).result.sent
        = ((List.range (st.getSubscriptions userId).length).filter
            (fun i => isFulfilled (outcomes i))).length ∧
    (PushService.sendToUser st userId outcomes).store.getSubscriptions userId
        = (st.getSubscriptions userId).filter
            (fun k => k ∉ (((st.getSubscriptions userId).enum.filter
                (fun p => isPermanentFailure (outcomes p.1))).map Prod.snd)) ∧
    ((PushService.sendToUser st userId outcomes).store.getSubscriptions userId).length
        = (st.getSubscriptions userId).length
          - ((List.range (st.getSubscriptions userId).length).filter
              (fun i => isPermanentFailure (outcomes i))).length ∧
    (∀ u', u' ≠ userId →
      (PushService.sendToUser st userId outcomes).store.getSubscriptions u'
        = st.getSubscriptions u') ∧
    (((List.range (st.getSubscriptions userId).length).filter
        (fun i => isPermanentFailure (outcomes i))).length = 0 →
      (PushService.sendToUser st userId outcomes).store = st) := by
  have hsubnd : (st.getSubscriptions userId).Nodup := getSubscriptions_nodup hInv userId
  have hpermlen :
      ((((st.getSubscriptions userId).enum.filter
          (fun p => isPermanentFailure (outcomes p.1))).map Prod.snd)).length
      = ((List.range (st.getSubscriptions userId).length).filter
          (fun i => isPermanentFailure (outcomes i))).length := by
    rw [List.length_map, ← List.countP_eq_length_filter, ← List.countP_eq_length_filter]
    exact countP_enum (st.getSubscriptions userId) (fun i => isPermanentFailure (outcomes i))
  have hpermsub :
      ((((st.getSubscriptions userId).enum.filter
          (fun p => isPermanentFailure (outcomes p.1))).map Prod.snd)).Sublist
        (st.getSubscriptions userId) := by
    have h0 : ((st.getSubscriptions userId).enum.filter
        (fun p => isPermanentFailure (outcomes p.1))).Sublist
          (st.getSubscriptions userId).enum :=
      List.filter_sublist _
    have h1 := h0.map Prod.snd
    rw [List.enum_map_snd] at h1
    exact h1
  by_cases h0 : (st.getSubscriptions userId).length = 0
  · have hnil : st.getSubscriptions userId = [] := List.length_eq_zero.mp h0
    rw [sendToUser_eq, if_pos h0]
    refine ⟨by rw [h0], ?_, ?_, ?_, ?_, ?_⟩
    · simp [h0]
    · simp [hnil]
    · simp [hnil]
    · intro u' _
      rfl
    · intro _
      rfl
  · rw [sendToUser_eq, if_neg h0]
    have hfold := forEachResults_spec userId outcomes (st.getSubscriptions userId).enum 0 st
    have hsent : (forEachResults userId outcomes (st.getSubscriptions userId).enum (0, st)).1
        = ((List.range (st.getSubscriptions userId).length).filter
            (fun i => isFulfilled (outcomes i))).length := by
      rw [hfold]
      simp only [Nat.zero_add]
      rw [← List.countP_eq_length_filter]
      exact countP_enum (st.getSubscriptions userId) (fun i => isFulfilled (outcomes i))
    have hstore : (forEachResults userId outcomes (st.getSubscriptions userId).enum (0, st)).2
        = removeKeysFold st userId
            (((st.getSubscriptions userId).enum.filter
              (fun p => isPermanentFailure (outcomes p.1))).map Prod.snd) := by
      rw [hfold]
    have hsame : (forEachResults userId outcomes
          (st.getSubscriptions userId).enum (0, st)).2.getSubscriptions userId
        = (st.getSubscriptions userId).filter
            (fun k => k ∉ (((st.getSubscriptions userId).enum.filter
              (fun p => isPermanentFailure (outcomes p.1))).map Prod.snd)) := by
      rw [hstore, removeKeysFold_get_same hInv.1, hsubnd.diff_eq_filter]
    refine ⟨rfl, hsent, hsame, ?_, ?_, ?_⟩
    · rw [hsame, ← hpermlen]
      exact length_filter_not_mem_of_sublist hsubnd hpermsub
    · intro u' hu'
      rw [hstore]
      exact removeKeysFold_get_other hu' _
    · intro hz
      rw [hstore]
      have : ((((st.getSubscriptions userId).enum.filter
          (fun p => isPermanentFailure (outcomes p.1))).map Prod.snd)) = [] := by
        rw [← List.length_eq_zero, hpermlen]
        exact hz
      rw [this]
      rfl

/-! ### Idempotence of `addSubscription` -/

theorem setAdd_idem (s : List String) (k : String) : setAdd (setAdd s k) k = setAdd s k := by
  have hk : k ∈ setAdd s k := mem_setAdd s k
  rw [setAdd, if_pos hk]

theorem mapAddKey_idem (m : List (String × List String)) (u k : String) :
    mapAddKey (mapAddKey m u k) u k = mapAddKey m u k := by
  induction m with
  | nil => simp [mapAddKey, setAdd]
  | cons e rest ih =>
    by_cases he : e.1 = u
    · rw [mapAddKey, if_pos he, mapAddKey, if_pos rfl, setAdd_idem]
    · rw [mapAddKey, if_neg he, mapAddKey, if_neg he, ih]

/-- C4: `addSubscription` is idempotent — adding the identical record twice
leaves the Store exactly as adding it once, and (on a well-formed Store) the
user then holds exactly one copy of the record. -/
theorem claim4_addSubscription_idempotent (st : StorageService) (userId : String)
    (sub : Subscription) :
    (st.addSubscription userId sub).addSubscription userId sub
        = st.addSubscription userId sub ∧
    (st.Invariant →
      ((st.addSubscription userId sub).getSubscriptions userId).count (JSONstringify sub)
        = 1) := by
  constructor
  · exact congrArg StorageService.mk (mapAddKey_idem st.subscriptions userId (JSONstringify sub))
  · intro hInv
    have hget : (st.addSubscription userId sub).getSubscriptions userId
        = setAdd (st.getSubscriptions userId) (JSONstringify sub) :=
      mapAddKey_get_same st.subscriptions userId (JSONstringify sub)
    have hnd : (st.getSubscriptions userId).Nodup := getSubscriptions_nodup hInv userId
    rw [hget]
    exact List.count_eq_one_of_mem (setAdd_nodup hnd _) (mem_setAdd _ _)

/-- C6: for a user with no stored subscriptions, `sendToUser` returns
`{sent: 0, total: 0}` without error, performs no delivery attempt, and leaves
the Store untouched. -/
theorem claim6_no_subscriptions (st : StorageService) (userId : String)
    (outcomes : Nat → DeliveryOutcome) (h : st.getSubscriptions userId = []) :
    PushService.sendToUser st userId outcomes
      = { result := { sent := 0, total := 0 }, store := st, attempts := 0 } := by
  rw [sendToUser_eq, if_pos (by rw [h]; rfl)]

/-- C7: with zero users `getStats` returns zero counts and the numeric
average `0`; the `toFixed(2)` division is reached only under the
`getUserCount() > 0` guard. -/
theorem claim7_getStats_zero_users (st : StorageService) (h : st.getUserCount = 0) :
    st.getStats
      = { users := 0, totalSubscriptions := 0, avgSubscriptionsPerUser := StatValue.num 0 } := by
  have hnil : st.subscriptions = [] := by
    rw [StorageService.getUserCount] at h
    exact List.length_eq_zero.mp h
  rw [StorageService.getStats]
  simp [StorageService.getUserCount, StorageService.getTotalSubscriptions, hnil]

/-- C3: the Store never holds a user entry with an empty subscription set
(for any sequence of operations starting from the empty Store), and removing
a user's last subscription decrements `getStats().users` by one while a
subsequent `getSubscriptions` for that user returns the empty list rather
than an error. -/
theorem claim3_store_cleanup_invariant :
    (∀ ops : List StoreOp, ∀ e ∈ (runOps emptyStorage ops).subscriptions, e.2 ≠ []) ∧
    (∀ (st : StorageService) (u : String) (sub : Subscription),
      st.Invariant →
      st.getSubscriptions u = [JSONstringify sub] →
      (st.removeSubscription u sub).getStats.users = st.getStats.users - 1 ∧
      (st.removeSubscription u sub).getSubscriptions u = []) := by
  constructor
  · intro ops e he
    exact ((invariant_runOps invariant_emptyStorage ops).2 e he).1
  · intro st u sub hInv hget
    have hg : mapGet st.subscriptions u = some [JSONstringify sub] := by
      cases hm : mapGet st.subscriptions u with
      | none =>
        rw [StorageService.getSubscriptions, hm] at hget
        simp at hget
      | some s =>
        rw [StorageService.getSubscriptions, hm] at hget
        simp only [Option.getD_some] at hget
        rw [hget]
    obtain ⟨hl, hn⟩ := mapRemoveKey_last hInv.1 hg
    constructor
    · show (mapRemoveKey st.subscriptions u (JSONstringify sub)).length
        = st.subscriptions.length - 1
      exact hl
    · show (mapGet (mapRemoveKey st.subscriptions u (JSONstringify sub)) u).getD [] = []
      rw [hn]
      rfl

/-! ### Decimal rendering helpers -/

theorem digitChar_isDigit {x : Nat} (h : x < 10) : (Nat.digitChar x).isDigit = true := by
  interval_cases x <;> decide

theorem natChars_ne_nil (n : Nat) : natChars n ≠ [] := by
  rw [natChars, natCharsAux]
  split
  · simp
  · simp

theorem twoDecimalChars_render (n : Nat) :
    twoDecimalChars (natChars (n / 100) ++ '.' ::
      [Nat.digitChar (n / 10 % 10), Nat.digitChar (n % 10)]) = true := by
  obtain ⟨a, as, ha⟩ : ∃ a as, (natChars (n / 100)).reverse = a :: as := by
    cases hrev : (natChars (n / 100)).reverse with
    | nil =>
      have : natChars (n / 100) = [] := by
        simpa using congrArg List.reverse hrev
      exact absurd this (natChars_ne_nil (n / 100))
    | cons a as => exact ⟨a, as, rfl⟩
  have hrw : (natChars (n / 100) ++ '.' ::
      [Nat.digitChar (n / 10 % 10), Nat.digitChar (n % 10)]).reverse
      = Nat.digitChar (n % 10) :: Nat.digitChar (n / 10 % 10) :: '.' :: a :: as := by
    rw [List.reverse_append]
    simp [ha]
  rw [twoDecimalChars, hrw]
  have h1 : n % 10 < 10 := Nat.mod_lt _ (by norm_num)
  have h2 : n / 10 % 10 < 10 := Nat.mod_lt _ (by norm_num)
  simp [digitChar_isDigit h1, digitChar_isDigit h2]

theorem twoDecimalString_toFixed2 (t u : Nat) :
    twoDecimalString (toFixed2 t u) = true :=
  twoDecimalChars_render ((200 * t + u) / (2 * u))

/-- C10: with at least one user, `getStats().avgSubscriptionsPerUser` is the
`toFixed(2)` string — two decimal places, never equal to any numeric value —
while with zero users it is the number `0`, so the field's type and precision
differ between the two cases. -/
theorem claim10_avg_is_string (st : StorageService) :
    (st.getUserCount = 0 →
      st.getStats.avgSubscriptionsPerUser = StatValue.num 0) ∧
    (0 < st.getUserCount →
      st.getStats.avgSubscriptionsPerUser
          = StatValue.str (toFixed2 st.getTotalSubscriptions st.getUserCount) ∧
      twoDecimalString (toFixed2 st.getTotalSubscriptions st.getUserCount) = true ∧
      ∀ n : Nat,
        st.getStats.avgSubscriptionsPerUser ≠ StatValue.num n) := by
  constructor
  · intro h
    rw [StorageService.getStats]
    simp [h]
  · intro h
    have hpos : st.getUserCount > 0 := h
    have havg : st.getStats.avgSubscriptionsPerUser
        = StatValue.str (toFixed2 st.getTotalSubscriptions st.getUserCount) := by
      rw [StorageService.getStats]
      simp [hpos]
    refine ⟨havg, twoDecimalString_toFixed2 _ _, ?_⟩
    intro n
    rw [havg]
    intro hcontra
    exact StatValue.noConfusion hcontra

/-- C9: the Store's identity for deduplication is the exact serialization.
Two records with permuted field order (hence different serializations) are
stored as two separate subscriptions, both are returned by
`getSubscriptions`, and `removeSubscription` deletes only the record whose
serialization matches exactly. -/
theorem claim9_serialization_identity (u : String) (sub1 sub2 : Subscription)
    (_hperm : List.Perm sub1.fields sub2.fields)
    (hne : JSONstringify sub1 ≠ JSONstringify sub2) :
    ((emptyStorage.addSubscription u sub1).addSubscription u sub2).getSubscriptions u
        = [JSONstringify sub1, JSONstringify sub2] ∧
    (((emptyStorage.addSubscription u sub1).addSubscription u sub2).removeSubscription
        u sub1).getSubscriptions u = [JSONstringify sub2] ∧
    (((emptyStorage.addSubscription u sub1).addSubscription u sub2).removeSubscription
        u sub2).getSubscriptions u = [JSONstringify sub1] := by
  have hne' : JSONstringify sub2 ≠ JSONstringify sub1 := fun hh => hne hh.symm
  have hadd : ((emptyStorage.addSubscription u sub1).addSubscription u sub2).subscriptions
      = [(u, [JSONstringify sub1, JSONstringify sub2])] := by
    show mapAddKey (mapAddKey [] u (JSONstringify sub1)) u (JSONstringify sub2) = _
    rw [mapAddKey, mapAddKey, if_pos rfl, setAdd, if_neg (by simpa using hne')]
    rfl
  refine ⟨?_, ?_, ?_⟩
  · show (mapGet ((emptyStorage.addSubscription u sub1).addSubscription u
      sub2).subscriptions u).getD [] = _
    rw [hadd, mapGet, if_pos rfl]
    rfl
  · show (mapGet (mapRemoveKey ((emptyStorage.addSubscription u sub1).addSubscription u
      sub2).subscriptions u (JSONstringify sub1)) u).getD [] = _
    rw [hadd, mapRemoveKey, if_pos rfl, if_pos (by simp),
      List.erase_cons_head]
    rw [if_neg (by simp), mapGet, if_pos rfl]
    rfl
  · show (mapGet (mapRemoveKey ((emptyStorage.addSubscription u sub1).addSubscription u
      sub2).subscriptions u (JSONstringify sub2)) u).getD [] = _
    have herase : [JSONstringify sub1, JSONstringify sub2].erase (JSONstringify sub2)
        = [JSONstringify sub1] := by
      rw [List.erase_cons_tail, List.erase_cons_head]
      simp [hne]
    rw [hadd, mapRemoveKey, if_pos rfl, if_pos (by simp), herase]
    rw [if_neg (by simp), mapGet, if_pos rfl]
    rfl

/-- C2 (amended): webhook authentication.  An absent — or present but
empty-valued — `X-Webhook-Token` header yields `401`; a present nonempty
header that differs from the configured token yields `403`; a matching
(nonempty) token with an invalid `callee_number` yields `400`.  In all three
cases the Dispatcher is not invoked and the Store is unchanged. -/
theorem claim2_webhook_auth (expectedToken : String) (req : WebhookRequest)
    (st : StorageService) (outcomes : Nat → DeliveryOutcome) :
    ((req.token = none ∨ req.token = some "") →
      (webhooksCallRoute expectedToken req st outcomes).response.status = 401 ∧
      (webhooksCallRoute expectedToken req st outcomes).store = st ∧
      (webhooksCallRoute expectedToken req st outcomes).dispatched = false) ∧
    (∀ t : String, req.token = some t → t ≠ "" → t ≠ expectedToken →
      (webhooksCallRoute expectedToken req st outcomes).response.status = 403 ∧
      (webhooksCallRoute expectedToken req st outcomes).store = st ∧
      (webhooksCallRoute expectedToken req st outcomes).dispatched = false) ∧
    (req.token = some expectedToken → expectedToken ≠ "" →
      (req.callee_number.isFalsy = true ∨ req.callee_number.isNonString = true ∨
        isValidPhoneNumber req.callee_number.asString = false) →
      (webhooksCallRoute expectedToken req st outcomes).response.status = 400 ∧
      (webhooksCallRoute expectedToken req st outcomes).store = st ∧
      (webhooksCallRoute expectedToken req st outcomes).dispatched = false) := by
  refine ⟨?_, ?_, ?_⟩
  · intro h
    have h1 : tokenFalsy req.token = true := by
      rcases h with h | h
      · rw [h]
        rfl
      · rw [h]
        rfl
    rw [webhooksCallRoute, if_pos h1]
    exact ⟨rfl, rfl, rfl⟩
  · intro t ht hne hneq
    have h1 : ¬ (tokenFalsy req.token = true) := by
      rw [ht]
      simp [tokenFalsy, hne]
    have h2 : ¬ ((!(req.token == some expectedToken)) = false) := by
      rw [ht]
      simp [hneq]
    rw [webhooksCallRoute, if_neg h1, if_pos (by simpa using h2)]
    exact ⟨rfl, rfl, rfl⟩
  · intro ht hne hbad
    have h1 : ¬ (tokenFalsy req.token = true) := by
      rw [ht]
      simp [tokenFalsy, hne]
    have h2 : ¬ ((!(req.token == some expectedToken)) = true) := by
      rw [ht]
      simp
    rw [webhooksCallRoute, if_neg h1, if_neg h2]
    by_cases howner : ownerInvalid req.owner_user_id = true
    · rw [if_pos howner]
      exact ⟨rfl, rfl, rfl⟩
    · rw [if_neg howner]
      by_cases hb2 : (req.callee_number.isFalsy || req.callee_number.isNonString) = true
      · rw [if_pos hb2]
        exact ⟨rfl, rfl, rfl⟩
      · rcases hbad with hb | hb | hb
        · exact absurd (by simp [hb]) hb2
        · exact absurd (by simp [hb]) hb2
        · rw [if_neg hb2, if_pos (by simp [hb])]
          exact ⟨rfl, rfl, rfl⟩

/-- C2 counterexample: a request whose `X-Webhook-Token` header is present
with the empty value — a value different from the configured token — is
answered with `401`, not the `403` the claim requires for every present
differing header value. -/
theorem claim2_counterexample :
    (some "" ≠ (none : Option String)) ∧
    ("" : String) ≠ "default-webhook-token" ∧
    (webhooksCallRoute "default-webhook-token"
        { token := some "", owner_user_id := JsValue.str "alice",
          callee_number := JsValue.str "+1234567890" }
        emptyStorage (fun _ => DeliveryOutcome.fulfilled)).response.status = 401 ∧
    (401 : Nat) ≠ 403 := by
  refine ⟨by simp, by decide, rfl, by decide⟩

/-! ### Phone validation -/

theorem specPhoneCharAmended_eq_phoneClassChar : specPhoneCharAmended = phoneClassChar := rfl

theorem phoneRegexTest_iff (cs : List Char) :
    phoneRegexTest cs = true ↔
      ∃ body : List Char, (cs = '+' :: body ∨ cs = body) ∧
        (∀ c ∈ body, phoneClassChar c = true) ∧ 7 ≤ body.length ∧ body.length ≤ 20 := by
  constructor
  · intro h
    rw [phoneRegexTest] at h
    by_cases hhead : cs.head? = some '+'
    · rw [if_pos hhead] at h
      obtain ⟨c, rest, hcons⟩ : ∃ c rest, cs = c :: rest := by
        cases hc : cs with
        | nil =>
          rw [hc] at hhead
          simp at hhead
        | cons c rest => exact ⟨c, rest, rfl⟩
      have hc : c = '+' := by
        rw [hcons] at hhead
        simpa using hhead
      subst hcons
      simp only [List.tail_cons] at h
      rw [Bool.and_eq_true, Bool.and_eq_true] at h
      exact ⟨rest, Or.inl (by rw [hc]), List.all_eq_true.mp h.1.1,
        by simpa using h.1.2, by simpa using h.2⟩
    · rw [if_neg hhead] at h
      rw [Bool.and_eq_true, Bool.and_eq_true] at h
      exact ⟨cs, Or.inr rfl, List.all_eq_true.mp h.1.1,
        by simpa using h.1.2, by simpa using h.2⟩
  · rintro ⟨body, hd | hd, hall, h7, h20⟩
    · subst hd
      rw [phoneRegexTest, if_pos (show ('+' :: body).head? = some '+' from rfl)]
      simp only [List.tail_cons]
      rw [Bool.and_eq_true, Bool.and_eq_true]
      exact ⟨⟨List.all_eq_true.mpr hall, by simpa using h7⟩, by simpa using h20⟩
    · subst hd
      have hh : ¬ cs.head? = some '+' := by
        cases cs with
        | nil => simp
        | cons c rest =>
          simp only [List.head?, Option.some.injEq]
          intro hc
          have hmem := hall c (List.mem_cons_self c rest)
          rw [hc] at hmem
          exact absurd hmem (by decide)
      rw [phoneRegexTest, if_neg hh]
      rw [Bool.and_eq_true, Bool.and_eq_true]
      exact ⟨⟨List.all_eq_true.mpr hall, by simpa using h7⟩, by simpa using h20⟩

theorem isValidPhoneNumber_iff (s : String) :
    isValidPhoneNumber s = true ↔ PhoneSpec specPhoneCharAmended s := by
  constructor
  · intro h
    rw [isValidPhoneNumber] at h
    by_cases hs : (s == "") = true
    · rw [if_pos hs] at h
      cases h
    · rw [if_neg hs] at h
      obtain ⟨body, hd, hall, h7, h20⟩ := (phoneRegexTest_iff (jsTrim s)).mp h
      exact ⟨body, hd, fun c hc => by
        rw [specPhoneCharAmended_eq_phoneClassChar]
        exact hall c hc, h7, h20⟩
  · rintro ⟨body, hd, hall, h7, h20⟩
    rw [isValidPhoneNumber]
    have hs : ¬ (s == "") = true := by
      intro hs0
      have hse : s = "" := by simpa using hs0
      subst hse
      have htrim : jsTrim "" = [] := rfl
      rcases hd with hd | hd
      · rw [htrim] at hd
        exact absurd hd (by simp)
      · rw [htrim] at hd
        rw [← hd] at h7
        simp at h7
    rw [if_neg hs]
    refine (phoneRegexTest_iff (jsTrim s)).mpr ⟨body, hd, ?_, h7, h20⟩
    intro c hc
    rw [← specPhoneCharAmended_eq_phoneClassChar]
    exact hall c hc

/-- C5 (amended): `isValidPhoneNumber` accepts a string exactly when, after
trimming surrounding whitespace, it is an optional leading `'+'` followed by
7 to 20 characters drawn from digits, whitespace characters (the JS `\s`
class, not only the space character), hyphens, and parentheses; the listed
examples behave as stated. -/
theorem claim5_phone_validation :
    (∀ s : String, isValidPhoneNumber s = true ↔ PhoneSpec specPhoneCharAmended s) ∧
    isValidPhoneNumber "+1234567890" = true ∧
    isValidPhoneNumber "+49 123 456789" = true ∧
    isValidPhoneNumber "(555) 123-4567" = true ∧
    isValidPhoneNumber "abc" = false ∧
    isValidPhoneNumber "" = false ∧
    isValidPhoneNumber "123456" = false ∧
    isValidPhoneNumber "123456789012345678901" = false :=
  ⟨isValidPhoneNumber_iff, by decide, by decide, by decide, by decide, rfl,
    by decide, by decide⟩

/-- C5 counterexample: the code accepts the string `1<TAB>234567` — the TAB
is matched by the regex's `\s` class — while the claim's characterization
(digits, spaces, hyphens, parentheses only) rejects it, refuting the
claimed "exactly when". -/
theorem claim5_counterexample :
    isValidPhoneNumber "1\t234567" = true ∧
    ¬ PhoneSpec specPhoneCharClaim "1\t234567" := by
  constructor
  · decide
  · rintro ⟨body, hd | hd, hall, h7, h20⟩
    · have htrim : jsTrim "1\t234567"
          = '1' :: '\t' :: '2' :: '3' :: '4' :: '5' :: '6' :: '7' :: [] := by decide
      rw [htrim] at hd
      injection hd with h1 h2
      exact absurd h1 (by decide)
    · have htrim : jsTrim "1\t234567"
          = '1' :: '\t' :: '2' :: '3' :: '4' :: '5' :: '6' :: '7' :: [] := by decide
      rw [htrim] at hd
      subst hd
      have hmem := hall '\t' (by decide)
      exact absurd hmem (by decide)

/-! ### The VAPID key manager -/

/-- C8 counterexample: with no keypair configured, a second `initialize`
installs the keypair freshly generated during that call (the code re-reads
the environment and regenerates), so the active keypair changes between the
first and the second call. -/
theorem claim8_counterexample :
    ((VapidService.setup { publicKey := none, privateKey := none, adminEmail := none }
        { vapidPublicKey := none, vapidPrivateKey := none }
        ("PUB1", "PRIV1") "admin@example.com").publicKey = some "PUB1") ∧
    ((VapidService.setup
        (VapidService.setup { publicKey := none, privateKey := none, adminEmail := none }
          { vapidPublicKey := none, vapidPrivateKey := none }
          ("PUB1", "PRIV1") "admin@example.com")
        { vapidPublicKey := none, vapidPrivateKey := none }
        ("PUB2", "PRIV2") "admin@example.com").publicKey = some "PUB2") ∧
    some "PUB2" ≠ some "PUB1" :=
  ⟨rfl, rfl, by decide⟩

/-- C8 (amended): when a keypair is supplied in configuration, `initialize`
is idempotent — a second call leaves the state exactly as the first — the
configured keypair is used verbatim, and `getPublicKey` returns the
configured public key.  (Without configured keys each call installs the pair
freshly generated during that call.) -/
theorem claim8_configured_keypair (env : VapidEnv) (svc : VapidService)
    (g1 g2 : String × String) (adminEmail : String)
    (hpub : envFalsy env.vapidPublicKey = false)
    (hpriv : envFalsy env.vapidPrivateKey = false) :
    VapidService.setup (VapidService.setup svc env g1 adminEmail) env g2 adminEmail
        = VapidService.setup svc env g1 adminEmail ∧
    (VapidService.setup svc env g1 adminEmail).getPublicKey = env.vapidPublicKey := by
  have hcond : (envFalsy env.vapidPublicKey || envFalsy env.vapidPrivateKey) = false := by
    rw [hpub, hpriv]
    rfl
  have hsetup : ∀ (s : VapidService) (g : String × String),
      VapidService.setup s env g adminEmail
        = { publicKey := env.vapidPublicKey, privateKey := env.vapidPrivateKey,
            adminEmail := some adminEmail } := by
    intro s g
    rw [VapidService.setup, if_neg (by simp [hcond])]
  constructor
  · rw [hsetup, hsetup]
  · rw [hsetup]
    rfl

/-! ### Concrete instances -/

/-- A concrete subscription record. -/
def wsubA : Subscription := ⟨[("e", "1")]⟩

/-- Another concrete subscription record with a different serialization. -/
def wsubB : Subscription := ⟨[("e", "2")]⟩

/-- Field-permuted pair: same fields and values as `wsubP2`, different
order. -/
def wsubP1 : Subscription := ⟨[("a", "1"), ("b", "2")]⟩

/-- Field-permuted pair: same fields and values as `wsubP1`, different
order. -/
def wsubP2 : Subscription := ⟨[("b", "2"), ("a", "1")]⟩

/-- A Store holding two subscriptions for user `alice`. -/
def wstore : StorageService :=
  (emptyStorage.addSubscription "alice" wsubA).addSubscription "alice" wsubB

/-- A Store holding a single subscription for user `bob`. -/
def wstore1 : StorageService := emptyStorage.addSubscription "bob" wsubA

/-- Outcomes: the first delivery succeeds, every other one is rejected with
HTTP 410. -/
def woutcomes : Nat → DeliveryOutcome :=
  fun i => if i = 0 then DeliveryOutcome.fulfilled else DeliveryOutcome.rejected (some 410)

/-- Outcomes: every delivery succeeds. -/
def wallOk : Nat → DeliveryOutcome := fun _ => DeliveryOutcome.fulfilled

/-- An environment with a configured VAPID keypair. -/
def wenv : VapidEnv := { vapidPublicKey := some "PUBX", vapidPrivateKey := some "PRIVX" }

/-- The key manager's initial state. -/
def wsvc0 : VapidService := { publicKey := none, privateKey := none, adminEmail := none }

theorem claim1_fanout_completeness_witness :
    (PushService.sendToUser wstore "alice" woutcomes).result.total = 2 ∧
    (PushService.sendToUser wstore "alice" woutcomes).result.sent = 1 ∧
    ((PushService.sendToUser wstore "alice" woutcomes).store.getSubscriptions
      "alice").length = 1 := by
  have h := claim1_fanout_completeness wstore "alice" woutcomes (by decide)
  refine ⟨?_, ?_, ?_⟩
  · rw [h.1]
    decide
  · rw [h.2.1]
    decide
  · rw [h.2.2.2.1]
    decide

theorem claim2_webhook_auth_witness :
    ((webhooksCallRoute "tok"
        { token := some "", owner_user_id := JsValue.str "alice",
          callee_number := JsValue.str "+1234567890" }
        emptyStorage wallOk).response.status = 401 ∧
     (webhooksCallRoute "tok"
        { token := some "", owner_user_id := JsValue.str "alice",
          callee_number := JsValue.str "+1234567890" }
        emptyStorage wallOk).store = emptyStorage ∧
     (webhooksCallRoute "tok"
        { token := some "", owner_user_id := JsValue.str "alice",
          callee_number := JsValue.str "+1234567890" }
        emptyStorage wallOk).dispatched = false) ∧
    ((webhooksCallRoute "tok"
        { token := some "wrong", owner_user_id := JsValue.str "alice",
          callee_number := JsValue.str "+1234567890" }
        emptyStorage wallOk).response.status = 403 ∧
     (webhooksCallRoute "tok"
        { token := some "wrong", owner_user_id := JsValue.str "alice",
          callee_number := JsValue.str "+1234567890" }
        emptyStorage wallOk).store = emptyStorage ∧
     (webhooksCallRoute "tok"
        { token := some "wrong", owner_user_id := JsValue.str "alice",
          callee_number := JsValue.str "+1234567890" }
        emptyStorage wallOk).dispatched = false) :=
  ⟨(claim2_webhook_auth "tok"
      { token := some "", owner_user_id := JsValue.str "alice",
        callee_number := JsValue.str "+1234567890" }
      emptyStorage wallOk).1 (Or.inr rfl),
   (claim2_webhook_auth "tok"
      { token := some "wrong", owner_user_id := JsValue.str "alice",
        callee_number := JsValue.str "+1234567890" }
      emptyStorage wallOk).2.1 "wrong" rfl (by decide) (by decide)⟩

theorem claim3_store_cleanup_invariant_witness :
    (wstore1.removeSubscription "bob" wsubA).getStats.users = wstore1.getStats.users - 1 ∧
    (wstore1.removeSubscription "bob" wsubA).getSubscriptions "bob" = [] :=
  claim3_store_cleanup_invariant.2 wstore1 "bob" wsubA (by decide) (by decide)

theorem claim4_addSubscription_idempotent_witness :
    ((emptyStorage.addSubscription "carol" wsubA).getSubscriptions "carol").count
        (JSONstringify wsubA) = 1 :=
  (claim4_addSubscription_idempotent emptyStorage "carol" wsubA).2 (by decide)

theorem claim5_phone_validation_witness :
    PhoneSpec specPhoneCharAmended "+1234567890" :=
  (claim5_phone_validation.1 "+1234567890").mp (by decide)

theorem claim6_no_subscriptions_witness :
    PushService.sendToUser emptyStorage "nobody" wallOk
      = { result := { sent := 0, total := 0 }, store := emptyStorage, attempts := 0 } :=
  claim6_no_subscriptions emptyStorage "nobody" wallOk rfl

theorem claim7_getStats_zero_users_witness :
    emptyStorage.getStats
      = { users := 0, totalSubscriptions := 0,
          avgSubscriptionsPerUser := StatValue.num 0 } :=
  claim7_getStats_zero_users emptyStorage rfl

theorem claim8_configured_keypair_witness :
    VapidService.setup (VapidService.setup wsvc0 wenv ("A", "B") "ops@example.com")
        wenv ("C", "D") "ops@example.com"
      = VapidService.setup wsvc0 wenv ("A", "B") "ops@example.com" ∧
    (VapidService.setup wsvc0 wenv ("A", "B") "ops@example.com").getPublicKey
      = wenv.vapidPublicKey :=
  claim8_configured_keypair wenv wsvc0 ("A", "B") ("C", "D") "ops@example.com"
    (by decide) (by decide)

theorem claim9_serialization_identity_witness :
    ((emptyStorage.addSubscription "dave" wsubP1).addSubscription "dave"
        wsubP2).getSubscriptions "dave"
      = [JSONstringify wsubP1, JSONstringify wsubP2] ∧
    (((emptyStorage.addSubscription "dave" wsubP1).addSubscription "dave"
        wsubP2).removeSubscription "dave" wsubP1).getSubscriptions "dave"
      = [JSONstringify wsubP2] ∧
    (((emptyStorage.addSubscription "dave" wsubP1).addSubscription "dave"
        wsubP2).removeSubscription "dave" wsubP2).getSubscriptions "dave"
      = [JSONstringify wsubP1] :=
  claim9_serialization_identity "dave" wsubP1 wsubP2 (by decide) (by decide)

theorem claim10_avg_is_string_witness :
    wstore.getStats.avgSubscriptionsPerUser
        = StatValue.str (toFixed2 wstore.getTotalSubscriptions wstore.getUserCount) ∧
    twoDecimalString (toFixed2 wstore.getTotalSubscriptions wstore.getUserCount) = true :=
  ⟨((claim10_avg_is_string wstore).2 (by decide)).1,
   ((claim10_avg_is_string wstore).2 (by decide)).2.1⟩
